import Mathlib

/-!
# Semantic analysis for types (`lib/Sema/SemaType.cpp`)

A shallow embedding of the four `SemaType` entry points

* `SemaType::ActOnIntType`
* `SemaType::ActOnVoidType`
* `SemaType::ActOnTupleType`
* `SemaType::ActOnFunctionType`

together with a model of the `ASTContext` they forward to.  The entry points
are translated from the source file; `ASTContext` itself (its declaration,
`getTupleType` and `getFunctionType`) is not part of the source file and is
modelled from the specification of the type-interning context.
-/

set_option linter.unusedVariables false

namespace swift

/-! ## Data model -/

/-- Source location token (`llvm::SMLoc`): an opaque pointer-sized value supplied by the caller. -/
abbrev SMLoc := Nat

/-- Modelled from the spec: the `Type *` handle, whose declaration (`swift/AST/Type.h`) is
missing.  A handle is an opaque canonical reference to a type instance; it records the context
that owns the instance (`owner`) and the slot of the instance in that context (`index`).  Two
handles are identical exactly when both components agree. -/
structure TypePtr where
  owner : Nat
  index : Nat
deriving DecidableEq

/-- Modelled from the spec: the two primitive kinds, Int and Void. -/
inductive PrimitiveKind where
  | Int
  | Void
deriving DecidableEq

/-- Modelled from the spec: the tuple element descriptor `TupleTypeElt`, whose declaration is
missing: an optional name and a reference to a type. -/
structure TupleTypeElt where
  Name : Option String
  Ty : TypePtr
deriving DecidableEq

/-- Modelled from the spec: the type representation, a closed set of tagged variants (primitive,
tuple, function).  A tuple is an ordered sequence of element descriptors, a function has exactly
one input and one output type.  The shape is the structural key of an instance. -/
inductive TypeShape where
  | Primitive (kind : PrimitiveKind)
  | Tuple (elements : List TupleTypeElt)
  | Function (input output : TypePtr)
deriving DecidableEq

/-- Modelled from the spec: the two lifecycle states of a context. -/
inductive ContextState where
  | Active
  | TornDown
deriving DecidableEq

/-- Modelled from the spec: the error taxonomy of the construction calls. -/
inductive TypeError where
  | InvalidReference
  | UseAfterTeardown
deriving DecidableEq

/-- Modelled from the spec: the type context `ASTContext`, whose declaration
(`swift/AST/ASTContext.h`) is missing.  It owns every type instance of a compilation session:
`table` is the interning table, the instance in slot `i` has the handle `⟨ident, i⟩`; `IntType`
and `VoidType` are the data members read by `ActOnIntType` and `ActOnVoidType`; `state` is the
lifecycle state. -/
structure ASTContext where
  ident : Nat
  state : ContextState
  table : List TypeShape
  IntType : TypePtr
  VoidType : TypePtr
deriving DecidableEq

namespace TypeShape

/-- Modelled from the spec: the sub-type references of a shape. -/
def subTypes : TypeShape → List TypePtr
  | Primitive _ => []
  | Tuple elements => elements.map (fun e => e.Ty)
  | Function input output => [input, output]

end TypeShape

namespace ASTContext

/-- Modelled from the spec: a fresh, active context with the given identity.  It holds exactly
one instance of each primitive kind, the Int singleton and the Void singleton. -/
def create (ident : Nat) : ASTContext :=
  { ident := ident
    state := ContextState.Active
    table := [TypeShape.Primitive PrimitiveKind.Int, TypeShape.Primitive PrimitiveKind.Void]
    IntType := ⟨ident, 0⟩
    VoidType := ⟨ident, 1⟩ }

/-- Modelled from the spec: the explicit, one-way transition to the torn-down state; all type
instances are destroyed together. -/
def teardown (C : ASTContext) : ASTContext :=
  { C with state := ContextState.TornDown, table := [] }

/-- Modelled from the spec: a handle belongs to the context when the context is its owner. -/
def owns (C : ASTContext) (T : TypePtr) : Bool :=
  T.owner == C.ident

/-- Modelled from the spec: the operation `intern(shape)` of the interning table.  After
teardown it fails with `UseAfterTeardown`; if a sub-type does not belong to the context it fails
with `InvalidReference`; otherwise, if the structural key is present the existing instance is
returned, else a new instance is constructed, registered and returned.  A failing call leaves
the table as it is. -/
def intern (C : ASTContext) (shape : TypeShape) : Except TypeError TypePtr × ASTContext :=
  if C.state = ContextState.TornDown then
    (Except.error TypeError.UseAfterTeardown, C)
  else if shape.subTypes.all C.owns then
    if shape ∈ C.table then
      (Except.ok ⟨C.ident, C.table.indexOf shape⟩, C)
    else
      (Except.ok ⟨C.ident, C.table.length⟩, { C with table := C.table ++ [shape] })
  else
    (Except.error TypeError.InvalidReference, C)

/-- Modelled from the spec: `ASTContext::getTupleType(Elements, NumElements)`, missing from the
source file.  The elements are the first `NumElements` entries of the array `Elements`, in
order; the tuple shape built from them is interned. -/
def getTupleType (C : ASTContext) (Elements : List TupleTypeElt) (NumElements : Nat) :
    Except TypeError TypePtr × ASTContext :=
  C.intern (TypeShape.Tuple (Elements.take NumElements))

/-- Modelled from the spec: `ASTContext::getFunctionType(Input, Output)`, missing from the
source file.  The function shape with the given input and output is interned. -/
def getFunctionType (C : ASTContext) (Input Output : TypePtr) :
    Except TypeError TypePtr × ASTContext :=
  C.intern (TypeShape.Function Input Output)

end ASTContext

/-- The semantic-analysis object `Sema`.  Its declaration (`swift/Sema/Sema.h`) is missing; the
one member the source file uses is kept: `Context`, through which the entry points reach the
context (a reference, so that a mutation of the context is visible through it). -/
structure Sema where
  Context : ASTContext
deriving DecidableEq

/-- The object `SemaType` that carries the entry points.  Its declaration
(`swift/Sema/SemaType.h`) is missing; the one member the source file uses is kept: `S`, its
reference to `Sema`. -/
structure SemaType where
  S : Sema
deriving DecidableEq

namespace SemaType

/-- Write the context back through `S.Context`. -/
def withContext (self : SemaType) (C : ASTContext) : SemaType :=
  { self with S := { self.S with Context := C } }

/-- `SemaType::ActOnIntType`: `return S.Context.IntType;`.  The body reads a data member and
writes nothing, so the object is returned as it was. -/
def ActOnIntType (self : SemaType) (Loc : SMLoc) : TypePtr × SemaType :=
  (self.S.Context.IntType, self)

/-- `SemaType::ActOnVoidType`: `return S.Context.VoidType;`. -/
def ActOnVoidType (self : SemaType) (Loc : SMLoc) : TypePtr × SemaType :=
  (self.S.Context.VoidType, self)

/-- `SemaType::ActOnTupleType`: `return S.Context.getTupleType(Elements, NumElements);`.  The
outcome of the callee is returned as it is; the callee may have changed the context. -/
def ActOnTupleType (self : SemaType) (LPLoc : SMLoc) (Elements : List TupleTypeElt)
    (NumElements : Nat) (RPLoc : SMLoc) : Except TypeError TypePtr × SemaType :=
  let r := self.S.Context.getTupleType Elements NumElements
  (r.1, self.withContext r.2)

/-- `SemaType::ActOnFunctionType`: `return S.Context.getFunctionType(Input, Output);`. -/
def ActOnFunctionType (self : SemaType) (Input : TypePtr) (ArrowLoc : SMLoc)
    (Output : TypePtr) : Except TypeError TypePtr × SemaType :=
  let r := self.S.Context.getFunctionType Input Output
  (r.1, self.withContext r.2)

end SemaType

/-! ## Sequences of construction calls -/

/-- One construction call, with its arguments. -/
inductive Call where
  | IntType (Loc : SMLoc)
  | VoidType (Loc : SMLoc)
  | TupleType (LPLoc : SMLoc) (Elements : List TupleTypeElt) (NumElements : Nat) (RPLoc : SMLoc)
  | FunctionType (Input : TypePtr) (ArrowLoc : SMLoc) (Output : TypePtr)

namespace SemaType

/-- Perform one construction call.  The two primitive builders cannot fail, their handle is
reported as a success. -/
def act (self : SemaType) : Call → Except TypeError TypePtr × SemaType
  | Call.IntType Loc => (Except.ok (self.ActOnIntType Loc).1, (self.ActOnIntType Loc).2)
  | Call.VoidType Loc => (Except.ok (self.ActOnVoidType Loc).1, (self.ActOnVoidType Loc).2)
  | Call.TupleType LPLoc Elements NumElements RPLoc =>
      self.ActOnTupleType LPLoc Elements NumElements RPLoc
  | Call.FunctionType Input ArrowLoc Output => self.ActOnFunctionType Input ArrowLoc Output

/-- Perform a sequence of construction calls one after the other; the outcomes are collected in
call order. -/
def actAll (self : SemaType) : List Call → List (Except TypeError TypePtr) × SemaType
  | [] => ([], self)
  | c :: cs => ((self.act c).1 :: ((self.act c).2.actAll cs).1, ((self.act c).2.actAll cs).2)

end SemaType

/-- A fresh `SemaType` over a fresh context with the given identity. -/
def SemaType.create (ident : Nat) : SemaType :=
  { S := { Context := ASTContext.create ident } }

/-- Equality of call outcomes is decidable. -/
instance instDecidableEqOutcome : DecidableEq (Except TypeError TypePtr)
  | Except.ok a, Except.ok b =>
      if h : a = b then isTrue (congrArg Except.ok h)
      else isFalse (fun h2 => h (Except.ok.inj h2))
  | Except.error a, Except.error b =>
      if h : a = b then isTrue (congrArg Except.error h)
      else isFalse (fun h2 => h (Except.error.inj h2))
  | Except.ok _, Except.error _ => isFalse (fun h => Except.noConfusion h)
  | Except.error _, Except.ok _ => isFalse (fun h => Except.noConfusion h)

namespace ASTContext

/-- The primitive data members of the context are handles of the context itself. -/
def OwnsPrimitives (C : ASTContext) : Prop :=
  C.owns C.IntType = true ∧ C.owns C.VoidType = true

/-- Relation between a context and a later state of it: identity, lifecycle state and the
primitive members are the same, and the table has only grown at its end. -/
structure Extends (C D : ASTContext) : Prop where
  ident : D.ident = C.ident
  state : D.state = C.state
  IntType : D.IntType = C.IntType
  VoidType : D.VoidType = C.VoidType
  table : ∃ X, D.table = C.table ++ X

/-- The shape is registered in the table of the context and `T` is the handle of its instance. -/
def Registered (C : ASTContext) (shape : TypeShape) (T : TypePtr) : Prop :=
  shape ∈ C.table ∧ T = ⟨C.ident, C.table.indexOf shape⟩

end ASTContext

/-! ## Example inputs -/

/-- The example list `[(nil, Int), (nil, Void)]` over the fresh context with identity `0`. -/
def exampleIntVoid : List TupleTypeElt :=
  [⟨none, (ASTContext.create 0).IntType⟩, ⟨none, (ASTContext.create 0).VoidType⟩]

/-- The example list `[(nil, Void), (nil, Int)]` over the fresh context with identity `0`. -/
def exampleVoidInt : List TupleTypeElt :=
  [⟨none, (ASTContext.create 0).VoidType⟩, ⟨none, (ASTContext.create 0).IntType⟩]

/-- Some construction calls to put between two calls under test. -/
def exampleCalls : List Call :=
  [Call.IntType 11, Call.TupleType 12 exampleVoidInt 2 13,
   Call.FunctionType (ASTContext.create 0).VoidType 14 (ASTContext.create 0).IntType,
   Call.VoidType 15, Call.TupleType 16 [] 0 17]

/-- A `SemaType` whose context has been torn down: the fresh context `0` after teardown. -/
def tornDownExample : SemaType :=
  (SemaType.create 0).withContext (ASTContext.create 0).teardown

/-! ## Lemmas on the interning table -/

namespace ASTContext

theorem Extends.refl (C : ASTContext) : Extends C C :=
  ⟨rfl, rfl, rfl, rfl, ⟨[], by simp⟩⟩

theorem Extends.trans {C D E : ASTContext} (h1 : Extends C D) (h2 : Extends D E) :
    Extends C E := by
  obtain ⟨X, hX⟩ := h1.table
  obtain ⟨Y, hY⟩ := h2.table
  refine ⟨h2.ident.trans h1.ident, h2.state.trans h1.state, h2.IntType.trans h1.IntType,
    h2.VoidType.trans h1.VoidType, ⟨X ++ Y, ?_⟩⟩
  rw [hY, hX, List.append_assoc]

theorem owns_of_extends {C D : ASTContext} (h : Extends C D) (T : TypePtr) :
    D.owns T = C.owns T := by
  simp [owns, h.ident]

theorem Registered.mono {C D : ASTContext} {shape : TypeShape} {T : TypePtr}
    (h : Registered C shape T) (e : Extends C D) : Registered D shape T := by
  obtain ⟨X, hX⟩ := e.table
  obtain ⟨hm, hT⟩ := h
  refine ⟨by rw [hX]; exact List.mem_append_left _ hm, ?_⟩
  rw [hT, hX, List.indexOf_append_of_mem hm, e.ident]

theorem Registered.inj {C : ASTContext} {s1 s2 : TypeShape} {T1 T2 : TypePtr}
    (h1 : Registered C s1 T1) (h2 : Registered C s2 T2) (h : T1 = T2) : s1 = s2 := by
  obtain ⟨m1, e1⟩ := h1
  obtain ⟨m2, e2⟩ := h2
  rw [e1, e2] at h
  exact (List.indexOf_inj m1 m2).1 (TypePtr.mk.inj h).2

theorem intern_extends (C : ASTContext) (shape : TypeShape) :
    Extends C (C.intern shape).2 := by
  unfold intern
  split_ifs
  · exact Extends.refl C
  · exact Extends.refl C
  · exact ⟨rfl, rfl, rfl, rfl, ⟨[shape], rfl⟩⟩
  · exact Extends.refl C

theorem intern_ok {C : ASTContext} {shape : TypeShape} {T : TypePtr}
    (h : (C.intern shape).1 = Except.ok T) : Registered (C.intern shape).2 shape T := by
  unfold intern at h ⊢
  split_ifs at h ⊢ with h1 h2 h3
  · simp at h
    exact ⟨h3, h.symm⟩
  · simp at h
    refine ⟨by simp, ?_⟩
    simp [List.indexOf_append_of_not_mem h3, ← h]

theorem intern_of_registered {C : ASTContext} {shape : TypeShape} {T : TypePtr}
    (hs : C.state = ContextState.Active) (ho : shape.subTypes.all C.owns = true)
    (h : Registered C shape T) : C.intern shape = (Except.ok T, C) := by
  unfold intern
  rw [if_neg (by simp [hs]), if_pos ho, if_pos h.1, h.2]

theorem intern_ok_iff (C : ASTContext) (shape : TypeShape) :
    (∃ T, (C.intern shape).1 = Except.ok T) ↔
      (C.state = ContextState.Active ∧ shape.subTypes.all C.owns = true) := by
  unfold intern
  cases hs : C.state <;> split_ifs <;> simp_all

theorem intern_stable (C D : ASTContext) (shape : TypeShape)
    (e : Extends (C.intern shape).2 D) : (D.intern shape).1 = (C.intern shape).1 := by
  have e0 : Extends C D := (intern_extends C shape).trans e
  cases hr : (C.intern shape).1 with
  | ok T =>
    have hreg := (intern_ok hr).mono e
    have hex := (intern_ok_iff C shape).1 ⟨T, hr⟩
    have ho : shape.subTypes.all D.owns = true := by
      have : D.owns = C.owns := funext (owns_of_extends e0)
      rw [this]; exact hex.2
    rw [intern_of_registered (e0.state.trans hex.1) ho hreg]
  | error err =>
    have hD : D.owns = C.owns := funext (owns_of_extends e0)
    unfold intern at hr ⊢
    rw [e0.state, hD]
    split_ifs at hr ⊢ <;> simp_all

end ASTContext

/-! ## Lemmas on the entry points -/

namespace SemaType

theorem withContext_Context (self : SemaType) (C : ASTContext) :
    (self.withContext C).S.Context = C := rfl

theorem withContext_self (self : SemaType) : self.withContext self.S.Context = self := rfl

theorem act_extends (self : SemaType) (c : Call) :
    ASTContext.Extends self.S.Context (self.act c).2.S.Context := by
  cases c with
  | IntType Loc => exact ASTContext.Extends.refl _
  | VoidType Loc => exact ASTContext.Extends.refl _
  | TupleType LPLoc Elements NumElements RPLoc =>
    exact ASTContext.intern_extends _ _
  | FunctionType Input ArrowLoc Output =>
    exact ASTContext.intern_extends _ _

theorem actAll_extends (cs : List Call) :
    ∀ self : SemaType, ASTContext.Extends self.S.Context (self.actAll cs).2.S.Context := by
  induction cs with
  | nil => intro self; exact ASTContext.Extends.refl _
  | cons c cs ih =>
    intro self
    exact (act_extends self c).trans (ih (self.act c).2)

theorem act_owner {self : SemaType} (hp : self.S.Context.OwnsPrimitives) {c : Call}
    {T : TypePtr} (h : (self.act c).1 = Except.ok T) : T.owner = self.S.Context.ident := by
  cases c with
  | IntType Loc =>
    have : self.S.Context.IntType = T := Except.ok.inj h
    simpa [ASTContext.owns, this] using hp.1
  | VoidType Loc =>
    have : self.S.Context.VoidType = T := Except.ok.inj h
    simpa [ASTContext.owns, this] using hp.2
  | TupleType LPLoc Elements NumElements RPLoc =>
    have hreg := ASTContext.intern_ok h
    rw [hreg.2]
    exact (ASTContext.intern_extends _ _).ident
  | FunctionType Input ArrowLoc Output =>
    have hreg := ASTContext.intern_ok h
    rw [hreg.2]
    exact (ASTContext.intern_extends _ _).ident

theorem create_ownsPrimitives (ident : Nat) :
    (SemaType.create ident).S.Context.OwnsPrimitives := by
  simp [SemaType.create, ASTContext.create, ASTContext.OwnsPrimitives, ASTContext.owns]

theorem actAll_ownsPrimitives {self : SemaType} (hp : self.S.Context.OwnsPrimitives)
    (cs : List Call) : (self.actAll cs).2.S.Context.OwnsPrimitives := by
  have e := actAll_extends cs self
  unfold ASTContext.OwnsPrimitives at hp ⊢
  rw [ASTContext.owns_of_extends e, ASTContext.owns_of_extends e, e.IntType, e.VoidType]
  exact hp

end SemaType

/-! ## The primitive builders -/

/-- C1: for every context and every source location, `ActOnIntType` returns exactly the
`IntType` handle of the context, and the result is the same for any two locations. -/
theorem ActOnIntType_eq_Context_IntType (self : SemaType) (Loc Loc2 : SMLoc) :
    (self.ActOnIntType Loc).1 = self.S.Context.IntType ∧
      (self.ActOnIntType Loc).1 = (self.ActOnIntType Loc2).1 :=
  ⟨rfl, rfl⟩

/-- C2: for every context and every source location, `ActOnVoidType` returns exactly the
`VoidType` handle of the context, and the result is the same for any two locations. -/
theorem ActOnVoidType_eq_Context_VoidType (self : SemaType) (Loc Loc2 : SMLoc) :
    (self.ActOnVoidType Loc).1 = self.S.Context.VoidType ∧
      (self.ActOnVoidType Loc).1 = (self.ActOnVoidType Loc2).1 :=
  ⟨rfl, rfl⟩

theorem SemaType.actAll_IntType (locs : List SMLoc) (self : SemaType) :
    self.actAll (locs.map Call.IntType)
      = (locs.map (fun _ => Except.ok self.S.Context.IntType), self) := by
  induction locs with
  | nil => rfl
  | cons l ls ih =>
    simp only [List.map_cons, SemaType.actAll, SemaType.act, SemaType.ActOnIntType, ih]

theorem SemaType.actAll_VoidType (locs : List SMLoc) (self : SemaType) :
    self.actAll (locs.map Call.VoidType)
      = (locs.map (fun _ => Except.ok self.S.Context.VoidType), self) := by
  induction locs with
  | nil => rfl
  | cons l ls ih =>
    simp only [List.map_cons, SemaType.actAll, SemaType.act, SemaType.ActOnVoidType, ih]

/-- C3: idempotence of the primitive builders.  A single call to `ActOnIntType` or
`ActOnVoidType` leaves the object, and so the context, unchanged, so that a later call to either
builder returns what it returns on the starting context; a sequence of calls to `ActOnIntType`
with any locations returns the `IntType` handle of the starting context at every call (every
call returns what the first returned) and ends in the starting state; likewise for
`ActOnVoidType`. -/
theorem primitive_builders_idempotent (self : SemaType) (Loc Loc2 : SMLoc)
    (locs : List SMLoc) :
    (self.ActOnIntType Loc).2 = self ∧ (self.ActOnVoidType Loc).2 = self ∧
      ((self.ActOnIntType Loc).2.ActOnIntType Loc2).1 = (self.ActOnIntType Loc).1 ∧
      ((self.ActOnVoidType Loc).2.ActOnIntType Loc2).1 = (self.ActOnIntType Loc).1 ∧
      ((self.ActOnVoidType Loc).2.ActOnVoidType Loc2).1 = (self.ActOnVoidType Loc).1 ∧
      ((self.ActOnIntType Loc).2.ActOnVoidType Loc2).1 = (self.ActOnVoidType Loc).1 ∧
      self.actAll (locs.map Call.IntType)
        = (locs.map (fun _ => Except.ok (self.ActOnIntType Loc).1), self) ∧
      self.actAll (locs.map Call.VoidType)
        = (locs.map (fun _ => Except.ok (self.ActOnVoidType Loc).1), self) :=
  ⟨rfl, rfl, rfl, rfl, rfl, rfl, SemaType.actAll_IntType locs self,
    SemaType.actAll_VoidType locs self⟩

/-! ## The delegating builders -/

/-- C4: `ActOnTupleType` is a pure delegation.  Its outcome is the outcome of
`Context.getTupleType (Elements, NumElements)` on the same array and count, the context it
leaves behind is the context that call leaves behind, and the call is the same for any two
pairs of parenthesis locations. -/
theorem ActOnTupleType_delegates (self : SemaType) (LPLoc RPLoc LPLoc2 RPLoc2 : SMLoc)
    (Elements : List TupleTypeElt) (NumElements : Nat) :
    (self.ActOnTupleType LPLoc Elements NumElements RPLoc).1
        = (self.S.Context.getTupleType Elements NumElements).1 ∧
      (self.ActOnTupleType LPLoc Elements NumElements RPLoc).2.S.Context
        = (self.S.Context.getTupleType Elements NumElements).2 ∧
      self.ActOnTupleType LPLoc Elements NumElements RPLoc
        = self.ActOnTupleType LPLoc2 Elements NumElements RPLoc2 :=
  ⟨rfl, rfl, rfl⟩

/-- C5: `ActOnFunctionType` is a pure delegation.  Its outcome is the outcome of
`Context.getFunctionType (Input, Output)` with the input and the output in these positions, the
context it leaves behind is the context that call leaves behind, and the call is the same for
any two arrow locations. -/
theorem ActOnFunctionType_delegates (self : SemaType) (Input Output : TypePtr)
    (ArrowLoc ArrowLoc2 : SMLoc) :
    (self.ActOnFunctionType Input ArrowLoc Output).1
        = (self.S.Context.getFunctionType Input Output).1 ∧
      (self.ActOnFunctionType Input ArrowLoc Output).2.S.Context
        = (self.S.Context.getFunctionType Input Output).2 ∧
      self.ActOnFunctionType Input ArrowLoc Output
        = self.ActOnFunctionType Input ArrowLoc2 Output :=
  ⟨rfl, rfl, rfl⟩

/-! ## Structural deduplication -/

theorem ASTContext.tuple_all_owns (C : ASTContext) (elements : List TupleTypeElt) :
    (TypeShape.Tuple elements).subTypes.all C.owns = true ↔
      ∀ e ∈ elements, e.Ty.owner = C.ident := by
  simp [TypeShape.subTypes, ASTContext.owns]

theorem ASTContext.function_all_owns (C : ASTContext) (Input Output : TypePtr) :
    (TypeShape.Function Input Output).subTypes.all C.owns = true ↔
      (Input.owner = C.ident ∧ Output.owner = C.ident) := by
  simp [TypeShape.subTypes, ASTContext.owns]

/-- Two interned shapes, the second one interned in a later state of the context than the
first: the handles are identical exactly when the shapes are. -/
theorem ASTContext.intern_eq_iff {C D : ASTContext} {s1 s2 : TypeShape} {T1 T2 : TypePtr}
    (e : Extends (C.intern s1).2 D) (h1 : (C.intern s1).1 = Except.ok T1)
    (h2 : (D.intern s2).1 = Except.ok T2) : T1 = T2 ↔ s1 = s2 := by
  constructor
  · intro h
    exact ((intern_ok h1).mono (e.trans (intern_extends D s2))).inj (intern_ok h2) h
  · intro h
    subst h
    have := intern_stable C D s1 e
    rw [h1, h2] at this
    exact (Except.ok.inj this).symm

/-- C6: tuple structural deduplication.  Take any context, any element array and count and any
locations; call `ActOnTupleType`, then perform any sequence of construction calls, then call
`ActOnTupleType` again with any locations and with an array and count that give the same
element list (same count, names and type identities, the empty list included).  The second call
has the outcome of the first, and that outcome is a handle exactly when the context is active
and every element type belongs to it: so the two calls return the identical handle. -/
theorem ActOnTupleType_dedup (self : SemaType) (LPLoc RPLoc LPLoc2 RPLoc2 : SMLoc)
    (Elements Elements2 : List TupleTypeElt) (NumElements NumElements2 : Nat)
    (cs : List Call) (hsame : Elements.take NumElements = Elements2.take NumElements2) :
    ((((self.ActOnTupleType LPLoc Elements NumElements RPLoc).2.actAll cs).2.ActOnTupleType
        LPLoc2 Elements2 NumElements2 RPLoc2).1
      = (self.ActOnTupleType LPLoc Elements NumElements RPLoc).1) ∧
    ((∃ T, (self.ActOnTupleType LPLoc Elements NumElements RPLoc).1 = Except.ok T) ↔
      (self.S.Context.state = ContextState.Active ∧
        ∀ e ∈ Elements.take NumElements, e.Ty.owner = self.S.Context.ident)) := by
  constructor
  · have h := ASTContext.intern_stable self.S.Context
      ((self.ActOnTupleType LPLoc Elements NumElements RPLoc).2.actAll cs).2.S.Context
      (TypeShape.Tuple (Elements.take NumElements))
      (SemaType.actAll_extends cs (self.ActOnTupleType LPLoc Elements NumElements RPLoc).2)
    simp only [SemaType.ActOnTupleType, ASTContext.getTupleType, ← hsame]
    exact h
  · rw [← ASTContext.tuple_all_owns]
    exact ASTContext.intern_ok_iff _ _

/-- Concrete instance on the fresh context `0`: `[(nil, Int), (nil, Void)]` twice (the second time
as the first two entries of a longer array, with other calls in between) gives the handle
`⟨0, 2⟩` both times; the empty list twice gives the same unit-tuple handle `⟨0, 2⟩`. -/
theorem ActOnTupleType_dedup_witness :
    (exampleIntVoid.take 2 = (exampleIntVoid ++ exampleVoidInt).take 2) ∧
    ((SemaType.create 0).ActOnTupleType 1 exampleIntVoid 2 3).1 = Except.ok ⟨0, 2⟩ ∧
    ((((SemaType.create 0).ActOnTupleType 1 exampleIntVoid 2 3).2.actAll
        exampleCalls).2.ActOnTupleType 4 (exampleIntVoid ++ exampleVoidInt) 2 5).1
      = ((SemaType.create 0).ActOnTupleType 1 exampleIntVoid 2 3).1 ∧
    ((SemaType.create 0).ActOnTupleType 1 [] 0 3).1 = Except.ok ⟨0, 2⟩ ∧
    ((((SemaType.create 0).ActOnTupleType 1 [] 0 3).2.actAll
        exampleCalls).2.ActOnTupleType 4 exampleIntVoid 0 5).1
      = ((SemaType.create 0).ActOnTupleType 1 [] 0 3).1 :=
  ⟨rfl, rfl,
    (ActOnTupleType_dedup (SemaType.create 0) 1 3 4 5 exampleIntVoid
      (exampleIntVoid ++ exampleVoidInt) 2 2 exampleCalls rfl).1,
    rfl,
    (ActOnTupleType_dedup (SemaType.create 0) 1 3 4 5 [] exampleIntVoid 0 0 exampleCalls rfl).1⟩

/-- C7: tuple construction is injective on the structural key.  On an active context, take two
element lists whose types belong to the context and which differ (in length, in order, in a
name or in a type identity); call `ActOnTupleType` for the first, perform any sequence of
construction calls, call `ActOnTupleType` for the second.  Both calls return a handle and the
two handles are different. -/
theorem ActOnTupleType_injective (self : SemaType) (LPLoc RPLoc LPLoc2 RPLoc2 : SMLoc)
    (Elements Elements2 : List TupleTypeElt) (NumElements NumElements2 : Nat)
    (cs : List Call) (hact : self.S.Context.state = ContextState.Active)
    (h1 : ∀ e ∈ Elements.take NumElements, e.Ty.owner = self.S.Context.ident)
    (h2 : ∀ e ∈ Elements2.take NumElements2, e.Ty.owner = self.S.Context.ident)
    (hne : Elements.take NumElements ≠ Elements2.take NumElements2) :
    ∃ T1 T2, (self.ActOnTupleType LPLoc Elements NumElements RPLoc).1 = Except.ok T1 ∧
      (((self.ActOnTupleType LPLoc Elements NumElements RPLoc).2.actAll cs).2.ActOnTupleType
        LPLoc2 Elements2 NumElements2 RPLoc2).1 = Except.ok T2 ∧ T1 ≠ T2 := by
  have e1 := ASTContext.intern_extends self.S.Context
    (TypeShape.Tuple (Elements.take NumElements))
  have e2 := SemaType.actAll_extends cs (self.ActOnTupleType LPLoc Elements NumElements RPLoc).2
  have e12 := e1.trans e2
  obtain ⟨T1, hT1⟩ := (ASTContext.intern_ok_iff self.S.Context
    (TypeShape.Tuple (Elements.take NumElements))).2
    ⟨hact, (ASTContext.tuple_all_owns _ _).2 h1⟩
  obtain ⟨T2, hT2⟩ := (ASTContext.intern_ok_iff
    ((self.ActOnTupleType LPLoc Elements NumElements RPLoc).2.actAll cs).2.S.Context
    (TypeShape.Tuple (Elements2.take NumElements2))).2
    ⟨e12.state.trans hact, (ASTContext.tuple_all_owns _ _).2 (by rw [e12.ident]; exact h2)⟩
  refine ⟨T1, T2, hT1, hT2, ?_⟩
  intro h
  have := (ASTContext.intern_eq_iff e2 hT1 hT2).1 h
  exact hne (TypeShape.Tuple.inj this)

/-- Concrete instance on the fresh context `0`: `[(nil, Int), (nil, Void)]` against the reversed
list, and `[("x", Int)]` against `[(nil, Int)]`. -/
theorem ActOnTupleType_injective_witness :
    ((SemaType.create 0).S.Context.state = ContextState.Active) ∧
    (exampleIntVoid.take 2 ≠ exampleVoidInt.take 2) ∧
    (∃ T1 T2, ((SemaType.create 0).ActOnTupleType 1 exampleIntVoid 2 3).1 = Except.ok T1 ∧
      ((((SemaType.create 0).ActOnTupleType 1 exampleIntVoid 2 3).2.actAll
        []).2.ActOnTupleType 4 exampleVoidInt 2 5).1 = Except.ok T2 ∧ T1 ≠ T2) ∧
    (∃ T1 T2, ((SemaType.create 0).ActOnTupleType 1 [⟨some "x", ⟨0, 0⟩⟩] 1 3).1 = Except.ok T1 ∧
      ((((SemaType.create 0).ActOnTupleType 1 [⟨some "x", ⟨0, 0⟩⟩] 1 3).2.actAll
        exampleCalls).2.ActOnTupleType 4 [⟨none, ⟨0, 0⟩⟩] 1 5).1 = Except.ok T2 ∧ T1 ≠ T2) :=
  ⟨rfl, by decide,
    ActOnTupleType_injective (SemaType.create 0) 1 3 4 5 exampleIntVoid exampleVoidInt 2 2 []
      rfl (by decide) (by decide) (by decide),
    ActOnTupleType_injective (SemaType.create 0) 1 3 4 5 [⟨some "x", ⟨0, 0⟩⟩] [⟨none, ⟨0, 0⟩⟩]
      1 1 exampleCalls rfl (by decide) (by decide) (by decide)⟩

/-- C8: function type deduplication.  On an active context, take types `Input`, `Output`,
`Input2`, `Output2` that belong to the context; call `ActOnFunctionType` for the first pair,
perform any sequence of construction calls, call `ActOnFunctionType` for the second pair, with
any arrow locations.  Both calls return a handle, and the two handles are identical if and only
if the inputs are identical and the outputs are identical. -/
theorem ActOnFunctionType_dedup_iff (self : SemaType) (Input Output Input2 Output2 : TypePtr)
    (ArrowLoc ArrowLoc2 : SMLoc) (cs : List Call)
    (hact : self.S.Context.state = ContextState.Active)
    (hI : Input.owner = self.S.Context.ident) (hO : Output.owner = self.S.Context.ident)
    (hI2 : Input2.owner = self.S.Context.ident) (hO2 : Output2.owner = self.S.Context.ident) :
    ∃ T1 T2, (self.ActOnFunctionType Input ArrowLoc Output).1 = Except.ok T1 ∧
      (((self.ActOnFunctionType Input ArrowLoc Output).2.actAll cs).2.ActOnFunctionType
        Input2 ArrowLoc2 Output2).1 = Except.ok T2 ∧
      (T1 = T2 ↔ (Input = Input2 ∧ Output = Output2)) := by
  have e1 := ASTContext.intern_extends self.S.Context (TypeShape.Function Input Output)
  have e2 := SemaType.actAll_extends cs (self.ActOnFunctionType Input ArrowLoc Output).2
  have e12 := e1.trans e2
  obtain ⟨T1, hT1⟩ := (ASTContext.intern_ok_iff self.S.Context
    (TypeShape.Function Input Output)).2
    ⟨hact, (ASTContext.function_all_owns _ _ _).2 ⟨hI, hO⟩⟩
  obtain ⟨T2, hT2⟩ := (ASTContext.intern_ok_iff
    ((self.ActOnFunctionType Input ArrowLoc Output).2.actAll cs).2.S.Context
    (TypeShape.Function Input2 Output2)).2
    ⟨e12.state.trans hact,
      (ASTContext.function_all_owns _ _ _).2 ⟨by rw [e12.ident]; exact hI2,
        by rw [e12.ident]; exact hO2⟩⟩
  refine ⟨T1, T2, hT1, hT2, ?_⟩
  rw [ASTContext.intern_eq_iff e2 hT1 hT2]
  constructor
  · intro h
    exact TypeShape.Function.inj h
  · rintro ⟨rfl, rfl⟩
    rfl

/-- Concrete instance on the fresh context `0`: `(Int, Void)` twice gives the same handle `⟨0, 2⟩`,
and `(Void, Int)` after `(Int, Void)` gives a different handle. -/
theorem ActOnFunctionType_dedup_iff_witness :
    ((SemaType.create 0).S.Context.state = ContextState.Active) ∧
    ((SemaType.create 0).ActOnFunctionType ⟨0, 0⟩ 7 ⟨0, 1⟩).1 = Except.ok ⟨0, 2⟩ ∧
    ((((SemaType.create 0).ActOnFunctionType ⟨0, 0⟩ 7 ⟨0, 1⟩).2.actAll
        exampleCalls).2.ActOnFunctionType ⟨0, 0⟩ 8 ⟨0, 1⟩).1 = Except.ok ⟨0, 2⟩ ∧
    (∃ T1 T2, ((SemaType.create 0).ActOnFunctionType ⟨0, 0⟩ 7 ⟨0, 1⟩).1 = Except.ok T1 ∧
      ((((SemaType.create 0).ActOnFunctionType ⟨0, 0⟩ 7 ⟨0, 1⟩).2.actAll
        exampleCalls).2.ActOnFunctionType ⟨0, 1⟩ 8 ⟨0, 0⟩).1 = Except.ok T2 ∧
      (T1 = T2 ↔ ((⟨0, 0⟩ : TypePtr) = ⟨0, 1⟩ ∧ (⟨0, 1⟩ : TypePtr) = ⟨0, 0⟩))) :=
  ⟨rfl, rfl, by decide,
    ActOnFunctionType_dedup_iff (SemaType.create 0) ⟨0, 0⟩ ⟨0, 1⟩ ⟨0, 1⟩ ⟨0, 0⟩ 7 8
      exampleCalls rfl rfl rfl rfl rfl⟩

/-! ## Failure paths -/

theorem ASTContext.intern_invalid {C : ASTContext} {shape : TypeShape}
    (hact : C.state = ContextState.Active) (h : ¬ shape.subTypes.all C.owns = true) :
    C.intern shape = (Except.error TypeError.InvalidReference, C) := by
  unfold ASTContext.intern
  rw [if_neg (by simp [hact]), if_neg h]

theorem ASTContext.intern_error_iff (C : ASTContext) (shape : TypeShape)
    (hact : C.state = ContextState.Active) :
    (∃ err, (C.intern shape).1 = Except.error err) ↔ ¬ shape.subTypes.all C.owns = true := by
  have h := ASTContext.intern_ok_iff C shape
  cases hr : (C.intern shape).1 with
  | ok T =>
    have := h.1 ⟨T, hr⟩
    simp [this.2]
  | error err =>
    have : ¬ ∃ T, (C.intern shape).1 = Except.ok T := by simp [hr]
    rw [h] at this
    simp only [hact, true_and] at this
    simp [this]

theorem ASTContext.intern_tornDown {C : ASTContext} (shape : TypeShape)
    (htorn : C.state = ContextState.TornDown) :
    C.intern shape = (Except.error TypeError.UseAfterTeardown, C) := by
  unfold ASTContext.intern
  rw [if_pos htorn]

/-- C9, counterexample: the receiving context need not be active.  The contexts `0` and `1` are
distinct and `⟨1, 0⟩` is the Int handle obtained from context `1`; on the torn-down context `0`
the tuple call with that element type and the function call with that input fail with
`UseAfterTeardown`, not with `InvalidReference`. -/
theorem cross_context_on_tornDown_counterexample :
    tornDownExample.S.Context.ident ≠ (SemaType.create 1).S.Context.ident ∧
    ((SemaType.create 1).act (Call.IntType 9)).1 = Except.ok ⟨1, 0⟩ ∧
    tornDownExample.S.Context.state = ContextState.TornDown ∧
    tornDownExample.ActOnTupleType 1 [⟨none, ⟨1, 0⟩⟩] 1 3
      = (Except.error TypeError.UseAfterTeardown, tornDownExample) ∧
    (tornDownExample.ActOnTupleType 1 [⟨none, ⟨1, 0⟩⟩] 1 3).1
      ≠ Except.error TypeError.InvalidReference ∧
    tornDownExample.ActOnFunctionType ⟨1, 0⟩ 2 ⟨0, 1⟩
      = (Except.error TypeError.UseAfterTeardown, tornDownExample) ∧
    (tornDownExample.ActOnFunctionType ⟨1, 0⟩ 2 ⟨0, 1⟩).1
      ≠ Except.error TypeError.InvalidReference :=
  ⟨by decide, rfl, rfl, rfl, by decide, rfl, by decide⟩

/-- C9, amended: cross-context rejection on an active context.  Let `S1` and `S2` work on
distinct contexts, the context of `S1` being active, and let `T` be a handle obtained from a
construction call on `S2` (whose primitive members are its own handles, as in every context made
by `create` and used through the construction calls).  A call to `ActOnTupleType` on `S1` one of
whose element types is `T`, and a call to `ActOnFunctionType` on `S1` whose input or output is
`T`, fail with `InvalidReference`, return no type and leave the context as it is.  On the active
context these calls fail only in that case: a call fails exactly when one of its sub-types is
owned by another context. -/
theorem cross_context_rejection (S1 S2 : SemaType) (c : Call) (T : TypePtr)
    (LPLoc RPLoc ArrowLoc : SMLoc) (Elements Elements2 : List TupleTypeElt)
    (NumElements NumElements2 : Nat) (Input Output Input2 Output2 : TypePtr)
    (hdistinct : S1.S.Context.ident ≠ S2.S.Context.ident)
    (hact : S1.S.Context.state = ContextState.Active)
    (hp : S2.S.Context.OwnsPrimitives)
    (hT : (S2.act c).1 = Except.ok T)
    (hE : ∃ e ∈ Elements.take NumElements, e.Ty = T)
    (hF : Input = T ∨ Output = T) :
    S1.ActOnTupleType LPLoc Elements NumElements RPLoc
        = (Except.error TypeError.InvalidReference, S1) ∧
      S1.ActOnFunctionType Input ArrowLoc Output
        = (Except.error TypeError.InvalidReference, S1) ∧
      ((∃ err, (S1.ActOnTupleType LPLoc Elements2 NumElements2 RPLoc).1 = Except.error err) ↔
        ∃ e ∈ Elements2.take NumElements2, e.Ty.owner ≠ S1.S.Context.ident) ∧
      ((∃ err, (S1.ActOnFunctionType Input2 ArrowLoc Output2).1 = Except.error err) ↔
        (Input2.owner ≠ S1.S.Context.ident ∨ Output2.owner ≠ S1.S.Context.ident)) := by
  have hown : T.owner ≠ S1.S.Context.ident := by
    rw [SemaType.act_owner hp hT]
    exact fun h => hdistinct h.symm
  refine ⟨?_, ?_, ?_, ?_⟩
  · have hbad : ¬ (TypeShape.Tuple (Elements.take NumElements)).subTypes.all
        S1.S.Context.owns = true := by
      rw [ASTContext.tuple_all_owns]
      obtain ⟨e, he, heT⟩ := hE
      intro hall
      exact hown (heT ▸ hall e he)
    simp only [SemaType.ActOnTupleType, ASTContext.getTupleType,
      ASTContext.intern_invalid hact hbad, SemaType.withContext_self]
  · have hbad : ¬ (TypeShape.Function Input Output).subTypes.all
        S1.S.Context.owns = true := by
      rw [ASTContext.function_all_owns]
      rintro ⟨hi, ho⟩
      rcases hF with h | h
      · exact hown (h ▸ hi)
      · exact hown (h ▸ ho)
    simp only [SemaType.ActOnFunctionType, ASTContext.getFunctionType,
      ASTContext.intern_invalid hact hbad, SemaType.withContext_self]
  · have := ASTContext.intern_error_iff S1.S.Context
      (TypeShape.Tuple (Elements2.take NumElements2)) hact
    rw [ASTContext.tuple_all_owns] at this
    simpa [SemaType.ActOnTupleType, ASTContext.getTupleType] using this
  · have := ASTContext.intern_error_iff S1.S.Context
      (TypeShape.Function Input2 Output2) hact
    rw [ASTContext.function_all_owns] at this
    simp only [SemaType.ActOnFunctionType, ASTContext.getFunctionType]
    rw [this]
    tauto

/-- Concrete instance: the Int handle of the fresh context `1`, used on the fresh context `0` as a
tuple element and as a function input. -/
theorem cross_context_rejection_witness :
    ((SemaType.create 0).S.Context.ident ≠ (SemaType.create 1).S.Context.ident) ∧
    ((SemaType.create 1).act (Call.IntType 9)).1 = Except.ok ⟨1, 0⟩ ∧
    ((SemaType.create 0).ActOnTupleType 1 [⟨none, ⟨0, 0⟩⟩, ⟨none, ⟨1, 0⟩⟩] 2 3
        = (Except.error TypeError.InvalidReference, SemaType.create 0) ∧
      (SemaType.create 0).ActOnFunctionType ⟨1, 0⟩ 2 ⟨0, 1⟩
        = (Except.error TypeError.InvalidReference, SemaType.create 0) ∧
      ((∃ err, ((SemaType.create 0).ActOnTupleType 1 exampleIntVoid 2 3).1 = Except.error err) ↔
        ∃ e ∈ exampleIntVoid.take 2, e.Ty.owner ≠ (SemaType.create 0).S.Context.ident) ∧
      ((∃ err, ((SemaType.create 0).ActOnFunctionType ⟨0, 0⟩ 2 ⟨0, 1⟩).1 = Except.error err) ↔
        ((⟨0, 0⟩ : TypePtr).owner ≠ (SemaType.create 0).S.Context.ident ∨
          (⟨0, 1⟩ : TypePtr).owner ≠ (SemaType.create 0).S.Context.ident))) :=
  ⟨by decide, rfl,
    cross_context_rejection (SemaType.create 0) (SemaType.create 1) (Call.IntType 9) ⟨1, 0⟩
      1 3 2 [⟨none, ⟨0, 0⟩⟩, ⟨none, ⟨1, 0⟩⟩] exampleIntVoid 2 2 ⟨1, 0⟩ ⟨0, 1⟩ ⟨0, 0⟩ ⟨0, 1⟩
      (by decide) rfl (SemaType.create_ownsPrimitives 1) rfl
      ⟨⟨none, ⟨1, 0⟩⟩, by decide, rfl⟩ (Or.inl rfl)⟩

/-- C10, counterexample: on a torn-down context `ActOnIntType` and `ActOnVoidType` do not fail
with `UseAfterTeardown`; they return the `IntType` and `VoidType` handles `⟨0, 0⟩` and `⟨0, 1⟩`
of the context. -/
theorem primitive_builders_ignore_teardown_counterexample :
    tornDownExample.S.Context.state = ContextState.TornDown ∧
    tornDownExample.ActOnIntType 7 = (⟨0, 0⟩, tornDownExample) ∧
    (tornDownExample.act (Call.IntType 7)).1 ≠ Except.error TypeError.UseAfterTeardown ∧
    tornDownExample.ActOnVoidType 7 = (⟨0, 1⟩, tornDownExample) ∧
    (tornDownExample.act (Call.VoidType 7)).1 ≠ Except.error TypeError.UseAfterTeardown :=
  ⟨rfl, rfl, by decide, rfl, by decide⟩

/-- C10, amended: once the context has been torn down, `ActOnTupleType` and `ActOnFunctionType`
fail with `UseAfterTeardown` instead of returning a type, and leave the context as it is;
`ActOnIntType` and `ActOnVoidType` have no failure path and return the `IntType` and `VoidType`
handles of the context, as in every state. -/
theorem construction_after_teardown (self : SemaType) (Loc LPLoc RPLoc ArrowLoc : SMLoc)
    (Elements : List TupleTypeElt) (NumElements : Nat) (Input Output : TypePtr)
    (htorn : self.S.Context.state = ContextState.TornDown) :
    self.ActOnTupleType LPLoc Elements NumElements RPLoc
        = (Except.error TypeError.UseAfterTeardown, self) ∧
      self.ActOnFunctionType Input ArrowLoc Output
        = (Except.error TypeError.UseAfterTeardown, self) ∧
      self.ActOnIntType Loc = (self.S.Context.IntType, self) ∧
      self.ActOnVoidType Loc = (self.S.Context.VoidType, self) := by
  refine ⟨?_, ?_, rfl, rfl⟩
  · simp only [SemaType.ActOnTupleType, ASTContext.getTupleType,
      ASTContext.intern_tornDown _ htorn, SemaType.withContext_self]
  · simp only [SemaType.ActOnFunctionType, ASTContext.getFunctionType,
      ASTContext.intern_tornDown _ htorn, SemaType.withContext_self]

/-- Concrete instance on the torn-down example context. -/
theorem construction_after_teardown_witness :
    tornDownExample.S.Context.state = ContextState.TornDown ∧
    (tornDownExample.ActOnTupleType 1 exampleIntVoid 2 3
        = (Except.error TypeError.UseAfterTeardown, tornDownExample) ∧
      tornDownExample.ActOnFunctionType ⟨0, 0⟩ 2 ⟨0, 1⟩
        = (Except.error TypeError.UseAfterTeardown, tornDownExample) ∧
      tornDownExample.ActOnIntType 7 = (tornDownExample.S.Context.IntType, tornDownExample) ∧
      tornDownExample.ActOnVoidType 7 = (tornDownExample.S.Context.VoidType, tornDownExample)) :=
  ⟨rfl, construction_after_teardown tornDownExample 7 1 3 2 exampleIntVoid 2 ⟨0, 0⟩ ⟨0, 1⟩ rfl⟩

end swift
